import Mathlib

/-!
Shallow embedding of `sdk/src/postgres/utils/database.rs` from
`aptos-indexer-processor-sdk`: the chunked bulk-write pipeline
(`execute_in_chunks`), the one-shot sanitize-and-retry policy
(`execute_or_retry_cleaned`), the chunk-size computation
(`get_config_table_chunk_size` with `MAX_DIESEL_PARAM_SIZE`), the data
sanitizer (`clean_data_for_db`) and the connection-URL cleaning
(`parse_and_clean_db_url`).

Database effects are modelled by an explicit oracle: each call to
`execute_with_better_error` is driven by a `CallOutcome` describing what the
pool and the store did on that call (acquisition failure, execution failure,
or success with a row count).  Rust panics (integer division by zero) are
modelled as `Option.none`.
-/

/-- One field of a serialized record: either a string-typed field (a list of
bytes) or an opaque non-string field. -/
inductive FieldVal where
  | str (bytes : List Nat)
  | num (n : Int)
  deriving DecidableEq, Repr

/-- A record, as seen by the serde-level sanitizer: a sequence of fields. -/
abbrev Record := List FieldVal

/-- Strips null bytes from a string-typed field; every other field passes
through unchanged. -/
def stripNullBytes : FieldVal → FieldVal
  | FieldVal.str bytes => FieldVal.str (bytes.filter (fun b => b != 0))
  | f => f

/-- Modelled from the spec: `remove_null_bytes` lives in
`crate::utils::convert`, which is not under `src/`.  Per the spec (s4.2):
for every record, strip null-byte sequences in all string-typed fields; all
other field types pass through unchanged. -/
def remove_null_bytes (item : Record) : Record := item.map stripNullBytes

/-- `clean_data_for_db` from `database.rs` (lines 36-45): when
`should_remove_null_bytes` is set, map `remove_null_bytes` over the items;
otherwise return the items untouched. -/
def clean_data_for_db (items : List Record) (should_remove_null_bytes : Bool) :
    List Record :=
  if should_remove_null_bytes then items.map remove_null_bytes else items

/-- The structured error surface of the write path (`ProcessorError` as used
in `database.rs`): a message plus the optional offending statement text. -/
inductive ProcessorError where
  | DBStoreError (message : String) (query : Option String)
  deriving DecidableEq, Repr

/-- Oracle for one call to `execute_with_better_error`: either `pool.get()`
failed, or the statement execution failed, or it succeeded with a row
count. -/
inductive CallOutcome where
  | acqFail (e : String)
  | execFail (e : String)
  | execOk (rows : Nat)
  deriving DecidableEq, Repr

/-- True when the call outcome is one of the two failure modes. -/
def CallOutcome.isErr : CallOutcome → Bool
  | CallOutcome.execOk _ => false
  | _ => true

/-- `execute_with_better_error` from `database.rs` (lines 157-182): a pool
acquisition failure and a statement execution failure are both mapped to
`ProcessorError.DBStoreError` carrying the debug text of the statement;
success returns the row count. -/
def execute_with_better_error (debug_string : String) :
    CallOutcome → Except ProcessorError Nat
  | CallOutcome.acqFail e =>
      Except.error (ProcessorError.DBStoreError e (some debug_string))
  | CallOutcome.execFail e =>
      Except.error (ProcessorError.DBStoreError e (some debug_string))
  | CallOutcome.execOk n => Except.ok n

/-- Trace of one run of the retry policy: the statements executed in order,
how many times the sanitizer was invoked with `enabled = true`, and the
returned result. -/
structure RetryTrace (U : Type) where
  executed : List U
  sanitizeCalls : Nat
  result : Except ProcessorError Unit

/-- `execute_or_retry_cleaned` from `database.rs` (lines 200-224), as a trace
semantics.  `dq` models `diesel::debug_query`; `out1` and `out2` are the
oracle outcomes of the first and (when reached) second call to
`execute_with_better_error`.  On first success it returns `Ok(())`; on first
failure it cleans the items (`clean_data_for_db` with `true`), rebuilds the
statement, executes it once more, and returns that second result. -/
def execute_or_retry_cleaned {U : Type} (dq : U → String)
    (out1 out2 : CallOutcome) (build_query : List Record → U)
    (items : List Record) (query : U) : RetryTrace U :=
  match execute_with_better_error (dq query) out1 with
  | Except.ok _ => ⟨[query], 0, Except.ok ()⟩
  | Except.error _ =>
      let cleaned_items := clean_data_for_db items true
      let cleaned_query := build_query cleaned_items
      match execute_with_better_error (dq cleaned_query) out2 with
      | Except.ok _ => ⟨[query, cleaned_query], 1, Except.ok ()⟩
      | Except.error e => ⟨[query, cleaned_query], 1, Except.error e⟩

/-- Contiguous chunks of size `k` (last one possibly shorter), mirroring
Rust's `slice::chunks(k)`.  Rust panics when `k = 0`; the claims all assume
`0 < k`, and this model returns `[]` in that unreached case. -/
def chunksOf {α : Type} (k : Nat) (xs : List α) : List (List α) :=
  if h : xs.length = 0 ∨ k = 0 then []
  else xs.take k :: chunksOf k (xs.drop k)
termination_by xs.length
decreasing_by
  push_neg at h
  rw [List.length_drop]
  exact Nat.sub_lt (Nat.pos_of_ne_zero h.1) (Nat.pos_of_ne_zero h.2)

/-- The `for res in results { res? }` loop of `execute_in_chunks` (lines
138-142): return the first error in chunk order, `Ok(())` when there is
none. -/
def firstError : List (Except ProcessorError Unit) → Except ProcessorError Unit
  | [] => Except.ok ()
  | Except.ok _ :: rs => firstError rs
  | Except.error e :: _ => Except.error e

/-- Runs every chunk's unit of work in chunk-index order: build the statement
from the chunk and delegate to `execute_or_retry_cleaned`, exactly as the
spawned task body does (lines 128-131).  `env i` is the oracle for chunk
index `i`. -/
def runChunks {U : Type} (dq : U → String) (build_query : List Record → U)
    (env : Nat → CallOutcome × CallOutcome) :
    Nat → List (List Record) → List (RetryTrace U)
  | _, [] => []
  | i, c :: cs =>
      execute_or_retry_cleaned dq (env i).1 (env i).2 build_query c
        (build_query c) :: runChunks dq build_query env (i + 1) cs

/-- Observable behaviour of one `execute_in_chunks` call: the chunks the
batch was split into, the per-chunk retry-policy traces (one per chunk, in
chunk-index order), and the aggregated result. -/
structure ChunksRun (U : Type) where
  chunks : List (List Record)
  traces : List (RetryTrace U)
  result : Except ProcessorError Unit

/-- `execute_in_chunks` from `database.rs` (lines 113-143): split the batch
with `slice::chunks(chunk_size)`, run each chunk's task, then fold the
structured results left to right, returning the first error or `Ok(())`. -/
def execute_in_chunks {U : Type} (dq : U → String)
    (build_query : List Record → U) (items_to_insert : List Record)
    (chunk_size : Nat) (env : Nat → CallOutcome × CallOutcome) : ChunksRun U :=
  let chunks := chunksOf chunk_size items_to_insert
  let traces := runChunks dq build_query env 0 chunks
  ⟨chunks, traces, firstError (traces.map RetryTrace.result)⟩

/-- `MAX_DIESEL_PARAM_SIZE` from `database.rs` (line 32):
`(u16::MAX / 2) as usize`. -/
def MAX_DIESEL_PARAM_SIZE : Nat := 65535 / 2

/-- `get_config_table_chunk_size` from `database.rs` (lines 149-155).  The
overrides map is modelled as an association list with unique keys
(`AHashMap`); `field_count` stands for `T::field_count()`.  Rust's `/` on
`usize` panics on a zero divisor, modelled as `none`. -/
def get_config_table_chunk_size (field_count : Nat) (table_name : String)
    (per_table_chunk_sizes : List (String × Nat)) : Option Nat :=
  match per_table_chunk_sizes.lookup table_name with
  | some n => some n
  | none =>
      if field_count = 0 then none
      else some (MAX_DIESEL_PARAM_SIZE / field_count)

/-- `parse_and_clean_db_url` from `database.rs` (lines 76-91), modelled at
the level of the URL's decoded query pairs: `base` is everything before the
query string and `query_pairs` is what `db_url.query_pairs()` yields.  The
loop appends `k=v&` for every non-`sslrootcert` pair (in order) and records
the `sslrootcert` value (a later occurrence overwrites an earlier one); the
rebuilt query replaces the original one in the returned URL string. -/
def parse_and_clean_db_url (base : String)
    (query_pairs : List (String × String)) : String × Option String :=
  let folded := query_pairs.foldl
    (fun acc kv =>
      if kv.1 = "sslrootcert" then (acc.1, some kv.2)
      else (acc.1 ++ kv.1 ++ "=" ++ kv.2 ++ "&", acc.2))
    ("", none)
  (base ++ "?" ++ folded.1, folded.2)

/-- Written from the spec's words (s6, amended): every query parameter other
than `sslrootcert` passes through unchanged and in order, each emitted as
`key=value` followed by `&` (so the rebuilt query carries a trailing
separator). -/
def cleanedQuerySpec : List (String × String) → String
  | [] => ""
  | kv :: tl =>
      if kv.1 = "sslrootcert" then cleanedQuerySpec tl
      else kv.1 ++ "=" ++ kv.2 ++ "&" ++ cleanedQuerySpec tl

/-- Written from the spec's words (s6): the extracted certificate path is the
value of the `sslrootcert` parameter, the last occurrence winning. -/
def sslrootcertSpec (query_pairs : List (String × String)) : Option String :=
  query_pairs.foldl
    (fun acc kv => if kv.1 = "sslrootcert" then some kv.2 else acc) none

/-- A sample record with an embedded null byte, used by concrete witnesses. -/
def sampleRecord : Record := [FieldVal.str [104, 0, 105], FieldVal.num 7]

/-- A clean sample record, used by concrete witnesses. -/
def sampleRecord2 : Record := [FieldVal.str [104, 105], FieldVal.num 9]

/-- Oracle used by concrete witnesses: chunk 0 succeeds at once, every later
chunk fails on both attempts. -/
def envW : Nat → CallOutcome × CallOutcome := fun i =>
  if i = 0 then (CallOutcome.execOk 1, CallOutcome.execOk 1)
  else (CallOutcome.execFail "bad", CallOutcome.execFail "worse")

theorem chunksOf_nil {α : Type} (k : Nat) : chunksOf k ([] : List α) = [] := by
  rw [chunksOf]
  simp

theorem chunksOf_cons {α : Type} (k : Nat) (hk : 0 < k) (xs : List α)
    (hxs : xs ≠ []) : chunksOf k xs = xs.take k :: chunksOf k (xs.drop k) := by
  rw [chunksOf, dif_neg]
  push_neg
  refine ⟨fun h => hxs (List.eq_nil_of_length_eq_zero h), ?_⟩
  omega

theorem chunksOf_join_aux {α : Type} (k : Nat) (hk : 0 < k) :
    ∀ (n : Nat) (xs : List α), xs.length ≤ n → (chunksOf k xs).flatten = xs := by
  intro n
  induction n with
  | zero =>
      intro xs hle
      have hnil : xs = [] := List.eq_nil_of_length_eq_zero (Nat.le_zero.mp hle)
      subst hnil
      simp [chunksOf_nil]
  | succ n ih =>
      intro xs hle
      by_cases hxs : xs = []
      · subst hxs; simp [chunksOf_nil]
      · rw [chunksOf_cons k hk xs hxs, List.flatten_cons,
          ih (xs.drop k) (by rw [List.length_drop]; omega),
          List.take_append_drop]

theorem chunksOf_length_aux {α : Type} (k : Nat) (hk : 0 < k) :
    ∀ (n : Nat) (xs : List α), xs.length ≤ n →
      (chunksOf k xs).length = (xs.length + k - 1) / k := by
  intro n
  induction n with
  | zero =>
      intro xs hle
      have hnil : xs = [] := List.eq_nil_of_length_eq_zero (Nat.le_zero.mp hle)
      subst hnil
      simp [chunksOf_nil]
      exact (Nat.div_eq_of_lt (by omega)).symm
  | succ n ih =>
      intro xs hle
      by_cases hxs : xs = []
      · subst hxs
        simp [chunksOf_nil]
        exact (Nat.div_eq_of_lt (by omega)).symm
      · have hpos : 0 < xs.length := List.length_pos.mpr hxs
        rw [chunksOf_cons k hk xs hxs]
        by_cases hlek : xs.length ≤ k
        · have hdrop : xs.drop k = [] :=
            List.drop_eq_nil_iff.mpr hlek
          rw [hdrop, chunksOf_nil]
          have h1 : xs.length + k - 1 = (xs.length - 1) + k := by omega
          rw [List.length_singleton, h1, Nat.add_div_right _ hk,
            Nat.div_eq_of_lt (by omega)]
        · have hdropne : xs.drop k ≠ [] := by
            intro hcon
            have := List.drop_eq_nil_iff.mp hcon
            omega
          rw [List.length_cons,
            ih (xs.drop k) (by rw [List.length_drop]; omega),
            List.length_drop]
          have h2 : xs.length + k - 1 = (xs.length - k + k - 1) + k := by omega
          rw [h2, Nat.add_div_right _ hk]

theorem chunksOf_size_aux {α : Type} (k : Nat) :
    ∀ (n : Nat) (xs : List α), xs.length ≤ n →
      ∀ c ∈ chunksOf k xs, c.length ≤ k := by
  intro n
  induction n with
  | zero =>
      intro xs hle c hc
      have hnil : xs = [] := List.eq_nil_of_length_eq_zero (Nat.le_zero.mp hle)
      subst hnil
      rw [chunksOf_nil] at hc
      simp at hc
  | succ n ih =>
      intro xs hle c hc
      by_cases hxs : xs = []
      · subst hxs; rw [chunksOf_nil] at hc; simp at hc
      · rcases Nat.eq_zero_or_pos k with hk0 | hk
        · subst hk0
          rw [chunksOf] at hc
          simp at hc
        · rw [chunksOf_cons k hk xs hxs] at hc
          rcases List.mem_cons.mp hc with hceq | hcm
          · subst hceq
            rw [List.length_take]
            exact Nat.min_le_left k xs.length
          · exact ih (xs.drop k) (by rw [List.length_drop]; omega) c hcm

theorem chunksOf_dropLast_aux {α : Type} (k : Nat) (hk : 0 < k) :
    ∀ (n : Nat) (xs : List α), xs.length ≤ n →
      ∀ c ∈ (chunksOf k xs).dropLast, c.length = k := by
  intro n
  induction n with
  | zero =>
      intro xs hle c hc
      have hnil : xs = [] := List.eq_nil_of_length_eq_zero (Nat.le_zero.mp hle)
      subst hnil
      rw [chunksOf_nil] at hc
      simp at hc
  | succ n ih =>
      intro xs hle c hc
      by_cases hxs : xs = []
      · subst hxs; rw [chunksOf_nil] at hc; simp at hc
      · rw [chunksOf_cons k hk xs hxs] at hc
        by_cases hdrop : xs.drop k = []
        · rw [hdrop, chunksOf_nil] at hc
          simp at hc
        · have hne : chunksOf k (xs.drop k) ≠ [] := by
            rw [chunksOf_cons k hk _ hdrop]
            simp
          obtain ⟨y, ys, hys⟩ := List.exists_cons_of_ne_nil hne
          rw [hys] at hc
          rw [show (xs.take k :: y :: ys).dropLast
              = xs.take k :: (y :: ys).dropLast from rfl] at hc
          rcases List.mem_cons.mp hc with hceq | hcm
          · subst hceq
            have hklt : k < xs.length := by
              by_contra hcon
              exact hdrop (List.drop_eq_nil_iff.mpr (by omega))
            rw [List.length_take]
            exact Nat.min_eq_left (by omega)
          · rw [← hys] at hcm
            exact ih (xs.drop k) (by rw [List.length_drop]; omega) c hcm

theorem firstError_ok (rs : List (Except ProcessorError Unit))
    (h : ∀ r ∈ rs, r = Except.ok ()) : firstError rs = Except.ok () := by
  induction rs with
  | nil => rfl
  | cons r tl ih =>
      have hr := h r (List.mem_cons_self r tl)
      subst hr
      exact ih fun x hx => h x (List.mem_cons_of_mem _ hx)

theorem firstError_least (rs : List (Except ProcessorError Unit)) :
    ∀ (i : Nat) (hi : i < rs.length) (e : ProcessorError),
      rs.get ⟨i, hi⟩ = Except.error e →
      (∀ (j : Nat) (hj : j < rs.length), j < i → rs.get ⟨j, hj⟩ = Except.ok ()) →
      firstError rs = Except.error e := by
  induction rs with
  | nil => intro i hi; exact absurd hi (by simp)
  | cons r tl ih =>
      intro i hi e hie hj
      cases i with
      | zero =>
          have hr : r = Except.error e := hie
          subst hr
          rfl
      | succ m =>
          have hr : r = Except.ok () := hj 0 (by simp) (Nat.succ_pos m)
          subst hr
          show firstError tl = Except.error e
          refine ih m (by simpa using Nat.lt_of_succ_lt_succ (by simpa using hi)) e hie ?_
          intro j hjlen hjlt
          exact hj (j + 1) (by simpa using hjlen) (Nat.succ_lt_succ hjlt)

theorem runChunks_length {U : Type} (dq : U → String)
    (build_query : List Record → U) (env : Nat → CallOutcome × CallOutcome) :
    ∀ (i : Nat) (cs : List (List Record)),
      (runChunks dq build_query env i cs).length = cs.length := by
  intro i cs
  induction cs generalizing i with
  | nil => rfl
  | cons c tl ih => simp [runChunks, ih]

theorem execute_in_chunks_chunks {U : Type} (dq : U → String)
    (bq : List Record → U) (items : List Record) (k : Nat)
    (env : Nat → CallOutcome × CallOutcome) :
    (execute_in_chunks dq bq items k env).chunks = chunksOf k items := rfl

theorem filter_idem {α : Type} (p : α → Bool) (l : List α) :
    (l.filter p).filter p = l.filter p := by
  induction l with
  | nil => rfl
  | cons a tl ih =>
      by_cases h : p a
      · rw [List.filter_cons_of_pos h, List.filter_cons_of_pos h, ih]
      · rw [List.filter_cons_of_neg h, ih]

theorem stripNullBytes_idem (f : FieldVal) :
    stripNullBytes (stripNullBytes f) = stripNullBytes f := by
  cases f with
  | str bytes => simp [stripNullBytes, filter_idem]
  | num n => rfl

theorem remove_null_bytes_idem (r : Record) :
    remove_null_bytes (remove_null_bytes r) = remove_null_bytes r := by
  unfold remove_null_bytes
  rw [List.map_map, show stripNullBytes ∘ stripNullBytes = stripNullBytes
    from funext stripNullBytes_idem]

theorem parse_fold_aux :
    ∀ (query_pairs : List (String × String)) (q0 : String) (c0 : Option String),
      query_pairs.foldl
          (fun acc kv =>
            if kv.1 = "sslrootcert" then (acc.1, some kv.2)
            else (acc.1 ++ kv.1 ++ "=" ++ kv.2 ++ "&", acc.2))
          (q0, c0)
        = (q0 ++ cleanedQuerySpec query_pairs,
           query_pairs.foldl
             (fun acc kv => if kv.1 = "sslrootcert" then some kv.2 else acc)
             c0) := by
  intro qp
  induction qp with
  | nil =>
      intro q0 c0
      simp [cleanedQuerySpec]
  | cons kv tl ih =>
      intro q0 c0
      by_cases h : kv.1 = "sslrootcert"
      · simp only [List.foldl_cons, if_pos h, ih, cleanedQuerySpec]
      · simp only [List.foldl_cons, if_neg h, ih, cleanedQuerySpec]
        simp [String.append_assoc]

/-- C1: for every pool oracle, statement builder, item list and first
statement, `execute_or_retry_cleaned` executes the first statement first and
never executes more than two statements; if the first call succeeds it
returns success without invoking the sanitizer; if it fails it sanitizes the
items exactly once (`clean_data_for_db` with `true`), rebuilds the statement
from the sanitized items, executes exactly that rebuilt statement once more,
returns success if the second call succeeds, and otherwise returns the
second call's error verbatim. -/
theorem execute_or_retry_cleaned_policy {U : Type} (dq : U → String)
    (bq : List Record → U) (items : List Record) (query : U)
    (out1 out2 : CallOutcome) :
    (execute_or_retry_cleaned dq out1 out2 bq items query).executed.head?
        = some query ∧
    (execute_or_retry_cleaned dq out1 out2 bq items query).executed.length ≤ 2 ∧
    (∀ n, out1 = CallOutcome.execOk n →
      execute_or_retry_cleaned dq out1 out2 bq items query
        = ⟨[query], 0, Except.ok ()⟩) ∧
    (out1.isErr = true →
      (execute_or_retry_cleaned dq out1 out2 bq items query).sanitizeCalls = 1 ∧
      (execute_or_retry_cleaned dq out1 out2 bq items query).executed
        = [query, bq (clean_data_for_db items true)] ∧
      (∀ n, out2 = CallOutcome.execOk n →
        (execute_or_retry_cleaned dq out1 out2 bq items query).result
          = Except.ok ()) ∧
      (∀ e, out2 = CallOutcome.acqFail e ∨ out2 = CallOutcome.execFail e →
        (execute_or_retry_cleaned dq out1 out2 bq items query).result
          = Except.error (ProcessorError.DBStoreError e
              (some (dq (bq (clean_data_for_db items true))))))) := by
  cases out1 <;> cases out2 <;>
    simp [execute_or_retry_cleaned, execute_with_better_error, CallOutcome.isErr]

/-- C1 witness: a first execution failing on a null byte followed by a
successful retry on the sanitized items yields overall success. -/
theorem execute_or_retry_cleaned_policy_witness :
    (execute_or_retry_cleaned (fun _ => "Q") (CallOutcome.execFail "null byte")
        (CallOutcome.execOk 1) id [sampleRecord] [sampleRecord]).result
      = Except.ok () := by
  have h := execute_or_retry_cleaned_policy (fun _ => "Q") id [sampleRecord]
    [sampleRecord] (CallOutcome.execFail "null byte") (CallOutcome.execOk 1)
  exact (h.2.2.2 rfl).2.2.1 1 rfl

/-- C2: when every per-chunk unit of work completes with a structured result,
`execute_in_chunks` returns success if all chunk results are successes, and
otherwise returns the structured error of the failing chunk with the
smallest chunk index; every chunk is attempted exactly once (the chunk/trace
lists cover the whole split batch) and no chunk is undone. -/
theorem execute_in_chunks_error_aggregation {U : Type} (dq : U → String)
    (bq : List Record → U) (items : List Record) (k : Nat)
    (env : Nat → CallOutcome × CallOutcome) :
    ((∀ r ∈ (execute_in_chunks dq bq items k env).traces.map RetryTrace.result,
        r = Except.ok ()) →
      (execute_in_chunks dq bq items k env).result = Except.ok ()) ∧
    (∀ (i : Nat)
        (hi : i < ((execute_in_chunks dq bq items k env).traces.map
          RetryTrace.result).length) (e : ProcessorError),
      ((execute_in_chunks dq bq items k env).traces.map
          RetryTrace.result).get ⟨i, hi⟩ = Except.error e →
      (∀ (j : Nat)
          (hj : j < ((execute_in_chunks dq bq items k env).traces.map
            RetryTrace.result).length),
        j < i →
        ((execute_in_chunks dq bq items k env).traces.map
            RetryTrace.result).get ⟨j, hj⟩ = Except.ok ()) →
      (execute_in_chunks dq bq items k env).result = Except.error e) ∧
    (execute_in_chunks dq bq items k env).traces.length
      = (chunksOf k items).length := by
  refine ⟨?_, ?_, ?_⟩
  · intro h
    exact firstError_ok _ h
  · intro i hi e hie hj
    exact firstError_least _ i hi e hie hj
  · exact runChunks_length dq bq env 0 (chunksOf k items)

/-- C2 witness: with two one-record chunks where chunk 0 succeeds and chunk 1
fails on both attempts, `execute_in_chunks` returns chunk 1's second error. -/
theorem execute_in_chunks_error_aggregation_witness :
    (execute_in_chunks (fun _ => "Q") id [sampleRecord, sampleRecord2] 1
        envW).result
      = Except.error (ProcessorError.DBStoreError "worse" (some "Q")) := by
  have h := execute_in_chunks_error_aggregation (fun _ => "Q") id
    [sampleRecord, sampleRecord2] 1 envW
  have hrs : (execute_in_chunks (fun _ => "Q") id [sampleRecord, sampleRecord2]
        1 envW).traces.map RetryTrace.result
      = [Except.ok (),
         Except.error (ProcessorError.DBStoreError "worse" (some "Q"))] := by
    show (runChunks (fun _ => "Q") id envW 0
        (chunksOf 1 [sampleRecord, sampleRecord2])).map RetryTrace.result = _
    rw [show chunksOf 1 [sampleRecord, sampleRecord2]
        = [[sampleRecord], [sampleRecord2]] by simp [chunksOf_cons, chunksOf_nil]]
    rfl
  refine h.2.1 1 (by rw [hrs]; decide)
    (ProcessorError.DBStoreError "worse" (some "Q")) (by simp [hrs]) ?_
  intro j hj hlt
  have hj0 : j = 0 := by omega
  subst hj0
  simp [hrs]

/-- C3: for every batch and every chunk size k > 0, `execute_in_chunks`
splits the batch into exactly ceil(N/k) contiguous chunks, each of size at
most k and all but possibly the last of size exactly k, whose
order-preserving concatenation is the original batch. -/
theorem execute_in_chunks_splits {U : Type} (dq : U → String)
    (bq : List Record → U) (items : List Record) (k : Nat)
    (env : Nat → CallOutcome × CallOutcome) (hk : 0 < k) :
    (execute_in_chunks dq bq items k env).chunks.length
        = (items.length + k - 1) / k ∧
    (execute_in_chunks dq bq items k env).chunks.flatten = items ∧
    (∀ c ∈ (execute_in_chunks dq bq items k env).chunks, c.length ≤ k) ∧
    (∀ c ∈ (execute_in_chunks dq bq items k env).chunks.dropLast,
      c.length = k) := by
  refine ⟨?_, ?_, ?_, ?_⟩ <;> rw [execute_in_chunks_chunks]
  · exact chunksOf_length_aux k hk items.length items le_rfl
  · exact chunksOf_join_aux k hk items.length items le_rfl
  · exact chunksOf_size_aux k items.length items le_rfl
  · exact chunksOf_dropLast_aux k hk items.length items le_rfl

/-- C3 witness: a batch of 3 records with chunk size 2 yields ceil(3/2) = 2
chunks. -/
theorem execute_in_chunks_splits_witness :
    (execute_in_chunks (fun _ => "Q") id
        [sampleRecord, sampleRecord2, sampleRecord] 2
        (fun _ => (CallOutcome.execOk 1, CallOutcome.execOk 1))).chunks.length
      = 2 := by
  have h := execute_in_chunks_splits (fun _ => "Q") id
    [sampleRecord, sampleRecord2, sampleRecord] 2
    (fun _ => (CallOutcome.execOk 1, CallOutcome.execOk 1)) (by decide)
  rw [h.1]
  decide

/-- C10: for every chunk size k > 0, calling `execute_in_chunks` on an empty
batch produces zero chunks, zero chunk tasks (so no statement is executed),
and returns success. -/
theorem execute_in_chunks_empty {U : Type} (dq : U → String)
    (bq : List Record → U) (k : Nat) (env : Nat → CallOutcome × CallOutcome)
    (hk : 0 < k) :
    (execute_in_chunks dq bq [] k env).chunks = [] ∧
    (execute_in_chunks dq bq [] k env).traces = [] ∧
    (execute_in_chunks dq bq [] k env).result = Except.ok () := by
  have h0 : chunksOf k ([] : List Record) = [] := chunksOf_nil k
  refine ⟨h0, ?_, ?_⟩
  · show runChunks dq bq env 0 (chunksOf k []) = []
    rw [h0]
    rfl
  · show firstError ((runChunks dq bq env 0
        (chunksOf k [])).map RetryTrace.result) = Except.ok ()
    rw [h0]
    rfl

/-- C10 witness: the empty batch with chunk size 3 returns success. -/
theorem execute_in_chunks_empty_witness :
    (execute_in_chunks (fun _ => "Q") id [] 3 envW).result = Except.ok () := by
  exact (execute_in_chunks_empty (fun _ => "Q") id 3 envW (by decide)).2.2

/-- C4: for every table absent from the overrides and every field_count > 0,
`get_config_table_chunk_size` returns floor(MAX_DIESEL_PARAM_SIZE /
field_count), the product of the returned chunk size with field_count stays
within the ceiling, and the ceiling is floor(u16::MAX / 2) = 32767. -/
theorem get_config_table_chunk_size_default (field_count : Nat)
    (table_name : String) (overrides : List (String × Nat))
    (habsent : overrides.lookup table_name = none) (hfc : 0 < field_count) :
    get_config_table_chunk_size field_count table_name overrides
        = some (MAX_DIESEL_PARAM_SIZE / field_count) ∧
    (MAX_DIESEL_PARAM_SIZE / field_count) * field_count ≤ MAX_DIESEL_PARAM_SIZE ∧
    MAX_DIESEL_PARAM_SIZE = 32767 := by
  refine ⟨?_, Nat.div_mul_le_self _ _, rfl⟩
  simp [get_config_table_chunk_size, habsent, Nat.pos_iff_ne_zero.mp hfc]

/-- C4 witness: with no override, field_count = 5 yields chunk size 6553. -/
theorem get_config_table_chunk_size_default_witness :
    get_config_table_chunk_size 5 "events" [] = some 6553 ∧
    6553 * 5 ≤ 32767 := by
  have h := get_config_table_chunk_size_default 5 "events" [] rfl (by decide)
  exact ⟨by rw [h.1]; decide, by decide⟩

/-- C8: for every table present in the overrides and every field_count,
`get_config_table_chunk_size` returns the stored override verbatim,
uncapped. -/
theorem get_config_table_chunk_size_override (field_count : Nat)
    (table_name : String) (overrides : List (String × Nat)) (v : Nat)
    (hp : overrides.lookup table_name = some v) :
    get_config_table_chunk_size field_count table_name overrides = some v := by
  simp [get_config_table_chunk_size, hp]

/-- C8 witness: an override of 1000000 (far above the parameter ceiling) is
returned unchanged. -/
theorem get_config_table_chunk_size_override_witness :
    get_config_table_chunk_size 5 "big_table" [("big_table", 1000000)]
      = some 1000000 := by
  exact get_config_table_chunk_size_override 5 "big_table"
    [("big_table", 1000000)] 1000000 (by decide)

/-- C9: with field_count = 0 and no override, `get_config_table_chunk_size`
reaches the checked division by zero and fails fast (Rust's `/` panics on a
zero divisor, modelled as `none`) instead of producing a value; for every
field_count > 0 a value is produced, so field_count > 0 is the precondition
of the computation. -/
theorem get_config_table_chunk_size_zero_fields (table_name : String)
    (overrides : List (String × Nat))
    (habsent : overrides.lookup table_name = none) :
    get_config_table_chunk_size 0 table_name overrides = none ∧
    (∀ field_count, 0 < field_count →
      (get_config_table_chunk_size field_count table_name overrides).isSome
        = true) := by
  constructor
  · simp [get_config_table_chunk_size, habsent]
  · intro fc h
    simp [get_config_table_chunk_size, habsent, Nat.pos_iff_ne_zero.mp h]

/-- C9 witness: field_count = 0 on a table with no override produces no
value. -/
theorem get_config_table_chunk_size_zero_fields_witness :
    get_config_table_chunk_size 0 "events" [] = none := by
  exact (get_config_table_chunk_size_zero_fields "events" [] rfl).1

/-- C7: the disabled path of `clean_data_for_db` is the identity, and the
enabled path is idempotent. -/
theorem clean_data_for_db_spec (x : List Record) :
    clean_data_for_db x false = x ∧
    clean_data_for_db (clean_data_for_db x true) true
      = clean_data_for_db x true := by
  constructor
  · rfl
  · show (x.map remove_null_bytes).map remove_null_bytes = x.map remove_null_bytes
    rw [List.map_map, show remove_null_bytes ∘ remove_null_bytes
        = remove_null_bytes from funext remove_null_bytes_idem]

/-- C5 counterexample: at the claim's own concrete input the rebuilt query
string is the `&`-terminated `x=1&`, not exactly `x=1`: the loop emits
`key=value&` for every kept pair, leaving a trailing separator in the
cleaned URL. -/
theorem parse_and_clean_db_url_cex :
    parse_and_clean_db_url "postgres://u:p@host/db"
        [("sslrootcert", "/tmp/ca.pem"), ("x", "1")]
      = ("postgres://u:p@host/db?x=1&", some "/tmp/ca.pem") ∧
    ("postgres://u:p@host/db?x=1&" : String)
      ≠ "postgres://u:p@host/db?x=1" := by
  exact ⟨by decide, by decide⟩

/-- C5 amended: for every connection URL, `parse_and_clean_db_url` extracts
the `sslrootcert` value (the last occurrence winning) as the certificate
path, and rebuilds the query from every other parameter unchanged and in
order, each emitted as `key=value` followed by `&` (so the cleaned query
carries a trailing `&`). -/
theorem parse_and_clean_db_url_spec (base : String)
    (query_pairs : List (String × String)) :
    parse_and_clean_db_url base query_pairs
      = (base ++ "?" ++ cleanedQuerySpec query_pairs,
         sslrootcertSpec query_pairs) := by
  unfold parse_and_clean_db_url sslrootcertSpec
  rw [parse_fold_aux]
  simp

/-- C6 counterexample: a pool-acquisition failure on the first attempt does
trigger the one-shot sanitize-and-retry (one sanitizer call, a second
execution), contradicting the claim that the recovery is never triggered by
acquisition failures. -/
theorem acq_failure_triggers_retry_cex :
    (execute_or_retry_cleaned (fun _ => "Q")
        (CallOutcome.acqFail "pool exhausted") (CallOutcome.execOk 1) id
        [sampleRecord] [sampleRecord]).sanitizeCalls = 1 ∧
    (execute_or_retry_cleaned (fun _ => "Q")
        (CallOutcome.acqFail "pool exhausted") (CallOutcome.execOk 1) id
        [sampleRecord] [sampleRecord]).executed.length = 2 := by
  exact ⟨rfl, rfl⟩

/-- C6 amended: a pool-acquisition error is wrapped into the same structured
`DBStoreError` as an execution failure and surfaced to the caller; because
`execute_or_retry_cleaned` cannot distinguish the two, a first-attempt
acquisition failure also triggers the one-shot sanitize-and-retry, and a
second-attempt acquisition failure is returned to the caller as the terminal
error. -/
theorem acquisition_error_structured {U : Type} (dq : U → String)
    (bq : List Record → U) (items : List Record) (query : U) (e e2 : String)
    (out2 : CallOutcome) :
    execute_with_better_error (dq query) (CallOutcome.acqFail e)
      = Except.error (ProcessorError.DBStoreError e (some (dq query))) ∧
    (execute_or_retry_cleaned dq (CallOutcome.acqFail e) out2 bq items
        query).sanitizeCalls = 1 ∧
    (execute_or_retry_cleaned dq (CallOutcome.acqFail e)
        (CallOutcome.acqFail e2) bq items query).result
      = Except.error (ProcessorError.DBStoreError e2
          (some (dq (bq (clean_data_for_db items true))))) := by
  refine ⟨rfl, ?_, rfl⟩
  cases out2 <;> rfl
